import Mathlib

/-!
Verification development for the Web3-Career job hunter
(src/job_hunter.py).  The pipeline pieces used by the claims are
embedded shallowly: strings are Lean strings (lowercasing and
substring search are modelled character by character, matching
Python semantics on the ASCII inputs involved), datetimes are
absolute instants measured in integer seconds, and the persisted
seen-jobs registry is an association list from identity key to
record.
-/

set_option maxRecDepth 10000

/-! ### Character and string utilities (Python str semantics) -/

/-- Python str.lower for ASCII characters. -/
def lowerChar (c : Char) : Char :=
  if 65 ≤ c.toNat ∧ c.toNat ≤ 90 then Char.ofNat (c.toNat + 32) else c

/-- Characters treated as whitespace by Python str.strip and the regex
class backslash-s (space, tab, newline, carriage return, form feed,
vertical tab). -/
def isPySpace (c : Char) : Bool :=
  c == ' ' || c == '\t' || c == '\n' || c == '\r' ||
  c == '\x0c' || c == '\x0b'

/-- ASCII digit test (the regex class backslash-d on ASCII input). -/
def isDigitChar (c : Char) : Bool :=
  48 ≤ c.toNat && c.toNat ≤ 57

/-- Does the needle occur as a prefix of the haystack? -/
def listPrefixAt : List Char → List Char → Bool
  | [], _ => true
  | _ :: _, [] => false
  | n :: ns, h :: hs => n == h && listPrefixAt ns hs

/-- Does the needle occur as a contiguous substring of the haystack?
Models the Python expression (needle in haystack) on strings. -/
def containsSub (needle : List Char) : List Char → Bool
  | [] => listPrefixAt needle []
  | h :: hs => listPrefixAt needle (h :: hs) || containsSub needle hs

/-- Python str.strip: drop leading and trailing whitespace. -/
def trimList (cs : List Char) : List Char :=
  ((cs.dropWhile isPySpace).reverse.dropWhile isPySpace).reverse

/-- Numeric value of a digit run (Python int on the captured group). -/
def digitsToNat (ds : List Char) : Nat :=
  ds.foldl (fun n c => n * 10 + (c.toNat - 48)) 0

/-! ### Data model: JobOffer (dataclass JobOffer in job_hunter.py) -/

/-- The JobOffer dataclass.  posted_date is an absolute instant in
seconds (datetime in the source); defaults mirror the dataclass
defaults (tags None becomes the empty list in post-init). -/
structure JobOffer where
  title : String
  company : String
  url : String
  location : String
  posted_date : Option Int
  description : String
  source : String
  salary : Option String := none
  tags : List String := []
  is_new : Bool := true
  first_seen : Option String := none
deriving DecidableEq

/-- A JobOffer with the dataclass defaults filled in, used for concrete
test postings. -/
def mkJob (title company url : String) : JobOffer :=
  { title := title, company := company, url := url, location := "Remote",
    posted_date := none, description := "", source := "src" }

/-! ### Relevance filter (JobHunter.is_relevant_job) -/

/-- JobHunter.DESIRED_KEYWORDS. -/
def DESIRED_KEYWORDS : List String :=
  ["growth", "community", "marketing", "communication", "bd",
   "business development", "partnerships", "partner", "relations",
   "social media", "content", "brand", "ambassador", "advocate",
   "engagement", "ecosystem", "strategy", "lead", "manager",
   "head of", "director", "defi", "dune", "analytics", "data analyst",
   "research", "writer", "editor", "pr", "public relations"]

/-- JobHunter.EXCLUDE_KEYWORDS. -/
def EXCLUDE_KEYWORDS : List String :=
  ["engineer", "engineering", "developer", "solidity", "rust",
   "backend", "frontend", "full stack", "fullstack", "smart contract",
   "devops", "sre", "infrastructure", "architect", "software",
   "python developer", "java", "golang", "node.js", "react developer",
   "blockchain developer", "protocol engineer", "security engineer",
   "qa engineer", "test engineer", "mobile developer", "ios",
   "android developer"]

/-- The rescue terms consulted when an exclusion match is the generic
engineer or engineering keyword (line 121 of job_hunter.py). -/
def RESCUE_TERMS : List String :=
  ["marketing", "growth", "community", "bd", "partnerships"]

/-- JobHunter.is_relevant_job.  The text is title, a space, and the
description, lowercased.  An exclusion keyword occurring in the text
rejects the posting unless the keyword is engineer or engineering and
some rescue term also occurs; surviving postings are accepted exactly
when some desired keyword occurs. -/
def is_relevant_job (title : String) (description : String) : Bool :=
  let text := (title ++ " " ++ description).data.map lowerChar
  if EXCLUDE_KEYWORDS.any (fun kw =>
      containsSub kw.data text &&
      !((kw == "engineer" || kw == "engineering") &&
        RESCUE_TERMS.any (fun k => containsSub k.data text))) then
    false
  else
    DESIRED_KEYWORDS.any (fun kw => containsSub kw.data text)

/-! ### Time model -/

/-- Seconds in one day (timedelta days unit). -/
def secPerDay : Int := 86400

/-- Seconds in one week (timedelta weeks unit). -/
def secPerWeek : Int := 604800

/-- Seconds in one hour (timedelta hours unit). -/
def secPerHour : Int := 3600

/-! ### Recency test (JobHunter.is_recent) -/

/-- JobHunter.is_recent: a posting with unknown date is always recent;
otherwise the posted date must be at or after now minus max_age_days
days (the cutoff).  max_age_days is 30 in the source constructor. -/
def is_recent (now : Int) (max_age_days : Int) (posted_date : Option Int) : Bool :=
  match posted_date with
  | none => true
  | some d => decide (now - max_age_days * secPerDay ≤ d)

/-! ### Date normalizer (JobHunter.parse_relative_date)

The relative-unit branch embeds the four re.search patterns of the
source.  Each pattern is one-or-more digits, optional whitespace and a
unit token (an alternation such as day or d); re.search scans start
positions left to right with a greedy digit run, and the optional ago
suffix imposes no constraint, so a pattern matches at a position
exactly when a digit starts there and the token alternation follows
the run of digits and spaces. -/

/-- Marker set for the today branch (line 148). -/
def TODAY_MARKERS : List String := ["today", "just now", "new", "just posted"]

/-- Unit token of the day pattern: the alternation day or d. -/
def isDayTok (cs : List Char) : Bool :=
  listPrefixAt "day".data cs || listPrefixAt "d".data cs

/-- Unit token of the week pattern: week or w. -/
def isWeekTok (cs : List Char) : Bool :=
  listPrefixAt "week".data cs || listPrefixAt "w".data cs

/-- Unit token of the month pattern: month or mo. -/
def isMonthTok (cs : List Char) : Bool :=
  listPrefixAt "month".data cs || listPrefixAt "mo".data cs

/-- Unit token of the hour pattern: hour, hr or h. -/
def isHourTok (cs : List Char) : Bool :=
  listPrefixAt "hour".data cs || listPrefixAt "hr".data cs ||
  listPrefixAt "h".data cs

/-- re.search for a pattern digits, whitespace, unit token: scan start
positions left to right; where a digit starts, take the greedy digit
run and test the unit token after any whitespace; return the numeric
value of the run at the first matching position. -/
def searchNum (unitTok : List Char → Bool) : List Char → Option Nat
  | [] => none
  | c :: rest =>
    if isDigitChar c then
      let run := List.takeWhile isDigitChar (c :: rest)
      let after := List.dropWhile isDigitChar (c :: rest)
      if unitTok (List.dropWhile isPySpace after) then
        some (digitsToNat run)
      else
        searchNum unitTok rest
    else
      searchNum unitTok rest

/-- The for-loop over the four unit patterns (lines 156 to 174): day,
week, month, hour, in that order, first match returning now minus the
matched amount, with a month counted as exactly 30 days. -/
def relativeBranch (now : Int) (cs : List Char) : Option Int :=
  match searchNum isDayTok cs with
  | some v => some (now - (v : Int) * secPerDay)
  | none =>
    match searchNum isWeekTok cs with
    | some v => some (now - (v : Int) * secPerWeek)
    | none =>
      match searchNum isMonthTok cs with
      | some v => some (now - (v : Int) * 30 * secPerDay)
      | none =>
        match searchNum isHourTok cs with
        | some v => some (now - (v : Int) * secPerHour)
        | none => none

/-! ### Absolute date formats (the strptime fallback, lines 177 to 185)

Python strptime compiles each format to an anchored regex: a percent-Y
field is exactly four digits, percent-m is the alternation 1[0-2],
0[1-9], [1-9], percent-d is 3[01], [12] digit, 0[1-9], [1-9], month
names match literally (input is already lowercased), a space in the
format matches one or more whitespace characters, and the whole string
must be consumed; the resulting calendar date must also be valid
(strptime raises ValueError on an impossible day, which the source
catches and moves to the next format). -/

/-- Consume one expected literal character. -/
def expectChar (c : Char) : List Char → Option (List Char)
  | x :: rest => if x == c then some rest else none
  | [] => none

/-- Consume one or more whitespace characters (a space in a strptime
format string). -/
def skipWs1 : List Char → Option (List Char)
  | x :: rest => if isPySpace x then some (rest.dropWhile isPySpace) else none
  | [] => none

/-- percent-Y: exactly four digits. -/
def parse4Digits : List Char → Option (Nat × List Char)
  | a :: b :: c :: d :: rest =>
    if isDigitChar a && isDigitChar b && isDigitChar c && isDigitChar d then
      some (digitsToNat [a, b, c, d], rest)
    else none
  | _ => none

/-- percent-m with strptime alternation order: 1[0-2], then 0[1-9],
then [1-9]. -/
def parseMonthNum : List Char → Option (Nat × List Char)
  | c1 :: c2 :: rest =>
    if c1 == '1' && (48 ≤ c2.toNat && c2.toNat ≤ 50) then
      some (10 + (c2.toNat - 48), rest)
    else if c1 == '0' && (49 ≤ c2.toNat && c2.toNat ≤ 57) then
      some (c2.toNat - 48, rest)
    else if 49 ≤ c1.toNat && c1.toNat ≤ 57 then
      some (c1.toNat - 48, c2 :: rest)
    else none
  | [c1] =>
    if 49 ≤ c1.toNat && c1.toNat ≤ 57 then some (c1.toNat - 48, []) else none
  | [] => none

/-- percent-d with strptime alternation order: 3[01], then [12] digit,
then 0[1-9], then [1-9]. -/
def parseDayNum : List Char → Option (Nat × List Char)
  | c1 :: c2 :: rest =>
    if c1 == '3' && (c2 == '0' || c2 == '1') then
      some (30 + (c2.toNat - 48), rest)
    else if (c1 == '1' || c1 == '2') && isDigitChar c2 then
      some ((c1.toNat - 48) * 10 + (c2.toNat - 48), rest)
    else if c1 == '0' && (49 ≤ c2.toNat && c2.toNat ≤ 57) then
      some (c2.toNat - 48, rest)
    else if 49 ≤ c1.toNat && c1.toNat ≤ 57 then
      some (c1.toNat - 48, c2 :: rest)
    else none
  | [c1] =>
    if 49 ≤ c1.toNat && c1.toNat ≤ 57 then some (c1.toNat - 48, []) else none
  | [] => none

/-- Full month names (input is lowercased before format matching). -/
def monthNamesFull : List (String × Nat) :=
  [("january", 1), ("february", 2), ("march", 3), ("april", 4),
   ("may", 5), ("june", 6), ("july", 7), ("august", 8),
   ("september", 9), ("october", 10), ("november", 11), ("december", 12)]

/-- Abbreviated month names. -/
def monthNamesAbbr : List (String × Nat) :=
  [("jan", 1), ("feb", 2), ("mar", 3), ("apr", 4), ("may", 5),
   ("jun", 6), ("jul", 7), ("aug", 8), ("sep", 9), ("oct", 10),
   ("nov", 11), ("dec", 12)]

/-- Match a month name from the given table as a prefix. -/
def parseMonthName : List (String × Nat) → List Char → Option (Nat × List Char)
  | [], _ => none
  | (nm, v) :: rest, cs =>
    if listPrefixAt nm.data cs then some (v, cs.drop nm.data.length)
    else parseMonthName rest cs

/-- Gregorian leap year (datetime validation). -/
def isLeapYear (y : Nat) : Bool :=
  y % 4 == 0 && (y % 100 != 0 || y % 400 == 0)

/-- Length of a month (datetime validation). -/
def daysInMonth (y m : Nat) : Nat :=
  if m == 2 then (if isLeapYear y then 29 else 28)
  else if [4, 6, 9, 11].contains m then 30
  else 31

/-- Days strictly before year y in the proleptic Gregorian calendar
(CPython date internals). -/
def daysBeforeYear (y : Nat) : Nat :=
  365 * (y - 1) + (y - 1) / 4 - (y - 1) / 100 + (y - 1) / 400

/-- Days in year y strictly before month m. -/
def daysBeforeMonth (y m : Nat) : Nat :=
  [0, 31, 59, 90, 120, 151, 181, 212, 243, 273, 304, 334].getD (m - 1) 0 +
    (if 2 < m && isLeapYear y then 1 else 0)

/-- Proleptic Gregorian ordinal of a date (date.toordinal). -/
def toOrdinal (y m d : Nat) : Nat :=
  daysBeforeYear y + daysBeforeMonth y m + d

/-- Midnight of a calendar date as an absolute instant in seconds
(ordinal 719163 is 1970-01-01). -/
def epochOfYMD (y m d : Nat) : Int :=
  ((toOrdinal y m d : Int) - 719163) * secPerDay

/-- Format YYYY-MM-DD. -/
def fmtYMD (cs : List Char) : Option (Nat × Nat × Nat) := do
  let (y, cs) ← parse4Digits cs
  let cs ← expectChar '-' cs
  let (m, cs) ← parseMonthNum cs
  let cs ← expectChar '-' cs
  let (d, cs) ← parseDayNum cs
  if cs.isEmpty then some (y, m, d) else none

/-- Format DD/MM/YYYY. -/
def fmtDMYslash (cs : List Char) : Option (Nat × Nat × Nat) := do
  let (d, cs) ← parseDayNum cs
  let cs ← expectChar '/' cs
  let (m, cs) ← parseMonthNum cs
  let cs ← expectChar '/' cs
  let (y, cs) ← parse4Digits cs
  if cs.isEmpty then some (y, m, d) else none

/-- Format MM/DD/YYYY. -/
def fmtMDYslash (cs : List Char) : Option (Nat × Nat × Nat) := do
  let (m, cs) ← parseMonthNum cs
  let cs ← expectChar '/' cs
  let (d, cs) ← parseDayNum cs
  let cs ← expectChar '/' cs
  let (y, cs) ← parse4Digits cs
  if cs.isEmpty then some (y, m, d) else none

/-- Format month-name day, year; the table selects full or
abbreviated names. -/
def fmtBdY (tbl : List (String × Nat)) (cs : List Char) :
    Option (Nat × Nat × Nat) := do
  let (m, cs) ← parseMonthName tbl cs
  let cs ← skipWs1 cs
  let (d, cs) ← parseDayNum cs
  let cs ← expectChar ',' cs
  let cs ← skipWs1 cs
  let (y, cs) ← parse4Digits cs
  if cs.isEmpty then some (y, m, d) else none

/-- Format day month-name year. -/
def fmtdBY (tbl : List (String × Nat)) (cs : List Char) :
    Option (Nat × Nat × Nat) := do
  let (d, cs) ← parseDayNum cs
  let cs ← skipWs1 cs
  let (m, cs) ← parseMonthName tbl cs
  let cs ← skipWs1 cs
  let (y, cs) ← parse4Digits cs
  if cs.isEmpty then some (y, m, d) else none

/-- Run one format: the textual parse must succeed and the calendar
date must be constructible (year at least 1 and day within the
month), else this format fails and the next is tried. -/
def tryFormat (f : List Char → Option (Nat × Nat × Nat)) (cs : List Char) :
    Option Int :=
  match f cs with
  | some (y, m, d) =>
    if 1 ≤ y && 1 ≤ d && d ≤ daysInMonth y m then some (epochOfYMD y m d)
    else none
  | none => none

/-- The ordered strptime fallback over the seven date formats of the
source. -/
def tryDateFormats (cs : List Char) : Option Int :=
  (tryFormat fmtYMD cs).orElse fun _ =>
  (tryFormat fmtDMYslash cs).orElse fun _ =>
  (tryFormat fmtMDYslash cs).orElse fun _ =>
  (tryFormat (fmtBdY monthNamesFull) cs).orElse fun _ =>
  (tryFormat (fmtBdY monthNamesAbbr) cs).orElse fun _ =>
  (tryFormat (fmtdBY monthNamesFull) cs).orElse fun _ =>
  (tryFormat (fmtdBY monthNamesAbbr) cs).orElse fun _ => none

/-- Normalized text of JobHunter.parse_relative_date: lowercase, then
strip. -/
def normalizeDate (s : String) : List Char :=
  trimList (s.data.map lowerChar)

/-- JobHunter.parse_relative_date over an absolute current instant:
empty input is unknown; then the today marker set, then yesterday,
then the four relative-unit patterns in the fixed order day, week,
month, hour, and finally the ordered absolute formats; anything else
is unknown. -/
def parse_relative_date (now : Int) (date_str : String) : Option Int :=
  if date_str = "" then none
  else
    let cs := normalizeDate date_str
    if TODAY_MARKERS.any (fun m => containsSub m.data cs) then some now
    else if containsSub "yesterday".data cs then some (now - secPerDay)
    else
      match relativeBranch now cs with
      | some t => some t
      | none => tryDateFormats cs

/-! ### Seen-jobs registry (Novelty Tracker) -/

/-- One record of the persisted seen-jobs mapping.  first_seen is
optional because a registry loaded from disk may lack the field, in
which case marking substitutes the Unknown sentinel. -/
structure SeenEntry where
  first_seen : Option String
  title : String
  company : String
deriving DecidableEq

/-- The persisted registry: identity key to record, in insertion
order (a Python dict). -/
abbrev Registry := List (String × SeenEntry)

/-- Dict lookup on the registry. -/
def regFind (r : Registry) (k : String) : Option SeenEntry :=
  match r with
  | [] => none
  | (k2, e) :: rest => if k2 == k then some e else regFind rest k

/-- The identity key of a posting for the Novelty Tracker: the url
when non-empty, else the title-pipe-company composite (lines 94 and
108 of job_hunter.py). -/
def jobKey (j : JobOffer) : String :=
  if j.url ≠ "" then j.url else j.title ++ "|" ++ j.company

/-- JobHunter._mark_seen_jobs: for each posting whose key is in the
registry, set is_new to false and first_seen from the registry record
(Unknown when the record lacks the field); other postings are left
untouched.  The registry itself is not consulted again after loading
and is not modified here. -/
def mark_seen_jobs (reg : Registry) : List JobOffer → List JobOffer
  | [] => []
  | j :: rest =>
    (match regFind reg (jobKey j) with
     | some e =>
       { j with is_new := false, first_seen := some (e.first_seen.getD "Unknown") }
     | none => j) :: mark_seen_jobs reg rest

/-- The registry record inserted for a posting not seen before
(line 96 of job_hunter.py). -/
def newEntry (today : String) (j : JobOffer) : SeenEntry :=
  { first_seen := some today, title := j.title, company := j.company }

/-- JobHunter._save_seen_jobs: fold over the postings, inserting a
fresh record (first_seen set to today, plus title and company) for
every key not already present; existing keys are left alone. -/
def save_seen_jobs (today : String) (jobs : List JobOffer) (reg : Registry) :
    Registry :=
  jobs.foldl
    (fun r j =>
      if (regFind r (jobKey j)).isSome then r
      else r ++ [(jobKey j, newEntry today j)])
    reg

/-- A decoded JSON document at the granularity the registry code
distinguishes: a key-to-record mapping, or any other valid JSON value
(a list, a string, a number, ...), carried opaquely as its source
text.  json.load returns whichever the file holds; nothing in
_load_seen_jobs checks that the result is a mapping. -/
inductive JsonDoc where
  | mapping : Registry → JsonDoc
  | nonMapping : String → JsonDoc
deriving DecidableEq

/-- Outcome of opening and reading seen_jobs.json in _load_seen_jobs
(lines 79 to 87 of job_hunter.py): the file may be missing
(os.path.exists is false), raise IOError on open or read, hold bytes
that are not valid UTF-8 (json.load then raises UnicodeDecodeError, a
ValueError that the except clause, which names only JSONDecodeError
and IOError, does not catch), hold text that is not valid JSON
(json.JSONDecodeError, caught), or hold a valid JSON document. -/
inductive RegistryFile where
  | missing : RegistryFile
  | readError : RegistryFile
  | encodingError : RegistryFile
  | decodeError : RegistryFile
  | valid : JsonDoc → RegistryFile
deriving DecidableEq

/-- Result of one call to _load_seen_jobs: either the function
returns a value (the document json.load produced, or the empty
mapping fallback), or an exception escapes past the handler. -/
inductive LoadResult where
  | value : JsonDoc → LoadResult
  | raisesUnicodeDecodeError : LoadResult
deriving DecidableEq

/-- JobHunter._load_seen_jobs: a missing file and the two caught
failure modes (IOError, json.JSONDecodeError) yield the empty
mapping; a file whose bytes are invalid UTF-8 raises
UnicodeDecodeError past the except clause; any valid JSON document,
mapping or not, is returned exactly as json.load produced it. -/
def load_seen_jobs : RegistryFile → LoadResult
  | RegistryFile.missing => LoadResult.value (JsonDoc.mapping [])
  | RegistryFile.readError => LoadResult.value (JsonDoc.mapping [])
  | RegistryFile.encodingError => LoadResult.raisesUnicodeDecodeError
  | RegistryFile.decodeError => LoadResult.value (JsonDoc.mapping [])
  | RegistryFile.valid d => LoadResult.value d

/-- One run of the novelty phase of scrape_all: classify the postings
against the loaded registry, then persist the registry updated with
today's date for unseen keys (the source calls _mark_seen_jobs and
then _save_seen_jobs on the same list). -/
def runNovelty (reg : Registry) (today : String) (jobs : List JobOffer) :
    List JobOffer × Registry :=
  let marked := mark_seen_jobs reg jobs
  (marked, save_seen_jobs today marked reg)

/-! ### Deduplicator (the dedup loop of scrape_all, lines 974 to 984) -/

/-- The dedup loop with its accumulated set of seen urls: a posting
with a non-empty url not yet seen is kept and its url recorded; a
posting with an empty url is kept unconditionally; a posting with an
already-seen url is dropped. -/
def dedupeLoop (seen : List String) : List JobOffer → List JobOffer
  | [] => []
  | j :: rest =>
    if (j.url != "") && !(seen.contains j.url) then
      j :: dedupeLoop (j.url :: seen) rest
    else if j.url == "" then
      j :: dedupeLoop seen rest
    else
      dedupeLoop seen rest

/-- The Deduplicator: the dedup loop started from the empty seen set. -/
def dedupe (jobs : List JobOffer) : List JobOffer := dedupeLoop [] jobs

/-- The Deduplicator as the spec describes it: keep the first
occurrence of each distinct non-empty url, dropping the later
occurrences, and keep every posting with an empty url; order is
preserved.  Stated independently of the source loop for the
refinement proof of claim C4. -/
def dedupeSpec : List JobOffer → List JobOffer
  | [] => []
  | j :: rest =>
    if j.url = "" then j :: dedupeSpec rest
    else j :: dedupeSpec (rest.filter (fun k => k.url != j.url))
termination_by xs => xs.length
decreasing_by
  · simp only [List.length_cons]; omega
  · simp only [List.length_cons]
    exact Nat.lt_succ_of_le (List.length_filter_le _ _)


/-- Two postings may share a url in the dedup output only when the
first has no url. -/
def URLDistinct (a b : JobOffer) : Prop := a.url ≠ "" → a.url ≠ b.url

/-! ### Concrete fixtures used by the claim theorems -/

/-- A key-less posting (empty url), duplicated in the claims about the
fallback identity key. -/
def jDup : JobOffer := mkJob "Growth Lead" "Acme" ""

/-- A registry record as persisted by a previous run. -/
def demoSeenEntry : SeenEntry :=
  { first_seen := some "2024-01-01", title := "Growth Lead", company := "Acme" }

/-- A loaded registry that already contains the fallback key of jDup. -/
def demoSeenReg : Registry := [("Growth Lead|Acme", demoSeenEntry)]

/-- A posting with a url, used to exercise the registry update. -/
def demoUrlJob : JobOffer := mkJob "BD Manager" "Chain Co" "https://x/1"

/-- A registry with one unrelated key, used as the pre-existing state
in the registry-monotonicity witness. -/
def demoOldReg : Registry :=
  [("https://x/0", { first_seen := some "2023-12-31", title := "Old",
                     company := "OldCo" })]

/-- The postings of the first novelty round-trip run: urls a and b. -/
def jobsRun1 : List JobOffer := [mkJob "A" "CoA" "a", mkJob "B" "CoB" "b"]

/-- The postings of the second novelty round-trip run: urls a and c. -/
def jobsRun2 : List JobOffer := [mkJob "A" "CoA" "a", mkJob "C" "CoC" "c"]

/-! ### Deduplicator lemmas -/

theorem dedupeLoop_nil (seen : List String) : dedupeLoop seen [] = [] := rfl

theorem dedupeLoop_cons_kept {seen : List String} {j : JobOffer}
    {rest : List JobOffer} (h1 : (j.url == "") = false)
    (h2 : seen.contains j.url = false) :
    dedupeLoop seen (j :: rest) = j :: dedupeLoop (j.url :: seen) rest := by
  have hc : ((j.url != "") && !(seen.contains j.url)) = true := by
    rw [bne, h1, h2]; rfl
  rw [dedupeLoop, if_pos hc]

theorem dedupeLoop_cons_keyless {seen : List String} {j : JobOffer}
    {rest : List JobOffer} (h1 : (j.url == "") = true) :
    dedupeLoop seen (j :: rest) = j :: dedupeLoop seen rest := by
  have hc : ¬ (((j.url != "") && !(seen.contains j.url)) = true) := by
    rw [bne, h1]; simp
  rw [dedupeLoop, if_neg hc, if_pos h1]

theorem dedupeLoop_cons_dropped {seen : List String} {j : JobOffer}
    {rest : List JobOffer} (h1 : (j.url == "") = false)
    (h2 : seen.contains j.url = true) :
    dedupeLoop seen (j :: rest) = dedupeLoop seen rest := by
  have hc : ¬ (((j.url != "") && !(seen.contains j.url)) = true) := by
    rw [bne, h1, h2]; simp
  have hc2 : ¬ ((j.url == "") = true) := by rw [h1]; simp
  rw [dedupeLoop, if_neg hc, if_neg hc2]

theorem dedupeSpec_nil : dedupeSpec [] = [] := by
  rw [dedupeSpec.eq_def]

theorem dedupeSpec_cons_keyless {j : JobOffer} {rest : List JobOffer}
    (h : j.url = "") : dedupeSpec (j :: rest) = j :: dedupeSpec rest := by
  rw [dedupeSpec.eq_def]
  exact if_pos h

theorem dedupeSpec_cons_url {j : JobOffer} {rest : List JobOffer}
    (h : ¬ j.url = "") :
    dedupeSpec (j :: rest) =
      j :: dedupeSpec (rest.filter fun k => k.url != j.url) := by
  rw [dedupeSpec.eq_def]
  exact if_neg h

theorem dedupeLoop_eq_spec (xs : List JobOffer) :
    ∀ seen : List String,
      dedupeLoop seen xs =
        dedupeSpec (xs.filter fun k => (k.url == "") || !(seen.contains k.url)) := by
  induction xs with
  | nil => intro seen; rw [List.filter_nil, dedupeSpec_nil, dedupeLoop_nil]
  | cons j rest ih =>
    intro seen
    by_cases hu : j.url = ""
    · have h1 : (j.url == "") = true := beq_iff_eq.mpr hu
      have hp : ((j.url == "") || !(seen.contains j.url)) = true := by
        rw [h1]; rfl
      rw [dedupeLoop_cons_keyless h1,
        @List.filter_cons_of_pos _ (fun k => (k.url == "") || !(seen.contains k.url)) j _ hp,
        dedupeSpec_cons_keyless hu, ih]
    · have h1 : (j.url == "") = false := beq_eq_false_iff_ne.mpr hu
      by_cases hcon : seen.contains j.url = true
      · have hp : ¬ (((j.url == "") || !(seen.contains j.url)) = true) := by
          rw [h1, hcon]; simp
        rw [dedupeLoop_cons_dropped h1 hcon,
          @List.filter_cons_of_neg _ (fun k => (k.url == "") || !(seen.contains k.url)) j _ hp,
          ih]
      · have hc2 : seen.contains j.url = false := by simpa using hcon
        have hp : ((j.url == "") || !(seen.contains j.url)) = true := by
          rw [h1, hc2]; rfl
        rw [dedupeLoop_cons_kept h1 hc2,
          @List.filter_cons_of_pos _ (fun k => (k.url == "") || !(seen.contains k.url)) j _ hp,
          dedupeSpec_cons_url hu, ih]
        refine congrArg (fun l => j :: dedupeSpec l) ?_
        rw [List.filter_filter]
        refine List.filter_congr ?_
        intro k _
        by_cases hk : k.url = ""
        · have hk1 : (k.url == "") = true := beq_iff_eq.mpr hk
          have hkj : (k.url == j.url) = false := by
            refine beq_eq_false_iff_ne.mpr ?_
            rw [hk]; exact fun he => hu he.symm
          rw [List.contains_cons, hk1, hkj, bne, hkj]
          rfl
        · have hk1 : (k.url == "") = false := beq_eq_false_iff_ne.mpr hk
          rw [List.contains_cons, hk1, bne]
          cases hkj : (k.url == j.url) <;>
            cases hcs : seen.contains k.url <;> rfl

/-- Refinement: the dedup loop of scrape_all computes exactly the
first-occurrence filter described by the spec. -/
theorem dedupe_eq_spec (xs : List JobOffer) : dedupe xs = dedupeSpec xs := by
  have h := dedupeLoop_eq_spec xs []
  have hf : (xs.filter fun k => (k.url == "") || !(List.contains [] k.url)) = xs := by
    refine List.filter_eq_self.mpr ?_
    intro a _
    simp [List.contains]
  rw [dedupe, h, hf]

theorem url_notin_seen_of_mem_dedupeLoop (xs : List JobOffer) :
    ∀ (seen : List String) (j : JobOffer), j ∈ dedupeLoop seen xs →
      j.url ≠ "" → seen.contains j.url = false := by
  induction xs with
  | nil =>
    intro seen j hj
    rw [dedupeLoop_nil] at hj
    exact absurd hj (List.not_mem_nil j)
  | cons x rest ih =>
    intro seen j hj hne
    by_cases hu : x.url = ""
    · rw [dedupeLoop_cons_keyless (beq_iff_eq.mpr hu)] at hj
      rcases List.mem_cons.mp hj with rfl | hj2
      · exact absurd hu hne
      · exact ih seen j hj2 hne
    · have h1 : (x.url == "") = false := beq_eq_false_iff_ne.mpr hu
      by_cases hcon : seen.contains x.url = true
      · rw [dedupeLoop_cons_dropped h1 hcon] at hj
        exact ih seen j hj hne
      · have hc2 : seen.contains x.url = false := by simpa using hcon
        rw [dedupeLoop_cons_kept h1 hc2] at hj
        rcases List.mem_cons.mp hj with rfl | hj2
        · exact hc2
        · have h2 := ih (x.url :: seen) j hj2 hne
          rw [List.contains_cons, Bool.or_eq_false_iff] at h2
          exact h2.2

theorem pairwise_dedupeLoop (xs : List JobOffer) :
    ∀ seen, List.Pairwise URLDistinct (dedupeLoop seen xs) := by
  induction xs with
  | nil => intro seen; rw [dedupeLoop_nil]; exact List.Pairwise.nil
  | cons x rest ih =>
    intro seen
    by_cases hu : x.url = ""
    · rw [dedupeLoop_cons_keyless (beq_iff_eq.mpr hu)]
      refine List.Pairwise.cons ?_ (ih seen)
      intro b _ hx
      exact absurd hu hx
    · have h1 : (x.url == "") = false := beq_eq_false_iff_ne.mpr hu
      by_cases hcon : seen.contains x.url = true
      · rw [dedupeLoop_cons_dropped h1 hcon]; exact ih seen
      · have hc2 : seen.contains x.url = false := by simpa using hcon
        rw [dedupeLoop_cons_kept h1 hc2]
        refine List.Pairwise.cons ?_ (ih _)
        intro b hb hx
        by_cases hbu : b.url = ""
        · rw [hbu]; exact hx
        · have h2 := url_notin_seen_of_mem_dedupeLoop rest (x.url :: seen) b hb hbu
          rw [List.contains_cons, Bool.or_eq_false_iff] at h2
          exact fun he => (beq_eq_false_iff_ne.mp h2.1) he.symm

theorem dedupeLoop_id (ys : List JobOffer) :
    ∀ seen, (∀ y ∈ ys, y.url ≠ "" → seen.contains y.url = false) →
      List.Pairwise URLDistinct ys → dedupeLoop seen ys = ys := by
  induction ys with
  | nil => intro seen _ _; rfl
  | cons y rest ih =>
    intro seen hseen hpw
    rcases List.pairwise_cons.mp hpw with ⟨hy, hpw2⟩
    by_cases hu : y.url = ""
    · rw [dedupeLoop_cons_keyless (beq_iff_eq.mpr hu)]
      rw [ih seen (fun z hz => hseen z (List.mem_cons_of_mem y hz)) hpw2]
    · have h1 : (y.url == "") = false := beq_eq_false_iff_ne.mpr hu
      have hc : seen.contains y.url = false :=
        hseen y (List.mem_cons_self y rest) hu
      rw [dedupeLoop_cons_kept h1 hc]
      refine congrArg (fun l => y :: l) ?_
      refine ih (y.url :: seen) ?_ hpw2
      intro z hz hzu
      rw [List.contains_cons, Bool.or_eq_false_iff]
      refine ⟨?_, hseen z (List.mem_cons_of_mem y hz) hzu⟩
      exact beq_eq_false_iff_ne.mpr (fun he => (hy z hz hu) he.symm)

theorem dedupeSpec_sublist (xs : List JobOffer) : (dedupeSpec xs).Sublist xs := by
  induction xs using dedupeSpec.induct with
  | case1 => rw [dedupeSpec_nil]
  | case2 j rest h ihs =>
    rw [dedupeSpec_cons_keyless h]
    exact List.Sublist.cons₂ j ihs
  | case3 j rest h ihs =>
    rw [dedupeSpec_cons_url h]
    exact List.Sublist.cons₂ j (ihs.trans (List.filter_sublist rest))

theorem dedupeSpec_filter_keyless (xs : List JobOffer) :
    (dedupeSpec xs).filter (fun j => j.url == "") =
      xs.filter (fun j => j.url == "") := by
  induction xs using dedupeSpec.induct with
  | case1 => rw [dedupeSpec_nil]
  | case2 j rest h ihs =>
    have h1 : (j.url == "") = true := beq_iff_eq.mpr h
    rw [dedupeSpec_cons_keyless h,
      @List.filter_cons_of_pos _ (fun k => k.url == "") j _ h1,
      @List.filter_cons_of_pos _ (fun k => k.url == "") j _ h1, ihs]
  | case3 j rest h ihs =>
    have h1 : ¬ ((j.url == "") = true) := by
      rw [beq_eq_false_iff_ne.mpr h]; simp
    rw [dedupeSpec_cons_url h,
      @List.filter_cons_of_neg _ (fun k => k.url == "") j _ h1,
      @List.filter_cons_of_neg _ (fun k => k.url == "") j _ h1, ihs,
      List.filter_filter]
    refine List.filter_congr ?_
    intro k _
    by_cases hk : k.url = ""
    · have hk1 : (k.url == "") = true := beq_iff_eq.mpr hk
      have hkj : (k.url == j.url) = false := by
        refine beq_eq_false_iff_ne.mpr ?_
        rw [hk]; exact fun he => h he.symm
      rw [hk1, bne, hkj]
      rfl
    · have hk1 : (k.url == "") = false := beq_eq_false_iff_ne.mpr hk
      rw [hk1, Bool.false_and]

/-- C5: the Deduplicator is idempotent: deduplicating an
already-deduplicated posting list returns it unchanged, for every
input sequence. -/
theorem claim_C5_dedupe_idempotent (xs : List JobOffer) :
    dedupe (dedupe xs) = dedupe xs := by
  refine dedupeLoop_id (dedupe xs) [] ?_ ?_
  · intro y _ _; rfl
  · exact pairwise_dedupeLoop xs []

/-! ### Registry lemmas -/

theorem regFind_append_some {r1 : Registry} (r2 : Registry) {k : String}
    {e : SeenEntry} (h : regFind r1 k = some e) :
    regFind (r1 ++ r2) k = some e := by
  induction r1 with
  | nil => rw [regFind] at h; exact absurd h (by simp)
  | cons p rest ih =>
    rcases p with ⟨k2, e2⟩
    rw [List.cons_append, regFind]
    rw [regFind] at h
    by_cases hk : (k2 == k) = true
    · rw [if_pos hk]; rw [if_pos hk] at h; exact h
    · rw [if_neg hk]; rw [if_neg hk] at h; exact ih h

theorem regFind_append_none {r1 : Registry} (r2 : Registry) {k : String}
    (h : regFind r1 k = none) :
    regFind (r1 ++ r2) k = regFind r2 k := by
  induction r1 with
  | nil => rfl
  | cons p rest ih =>
    rcases p with ⟨k2, e2⟩
    rw [List.cons_append, regFind]
    rw [regFind] at h
    by_cases hk : (k2 == k) = true
    · rw [if_pos hk] at h; exact absurd h (by simp)
    · rw [if_neg hk]; rw [if_neg hk] at h; exact ih h

/-- Unfolding of the registry update over one posting. -/
theorem save_seen_jobs_cons (today : String) (j : JobOffer)
    (rest : List JobOffer) (reg : Registry) :
    save_seen_jobs today (j :: rest) reg =
      save_seen_jobs today rest
        (if (regFind reg (jobKey j)).isSome then reg
         else reg ++ [(jobKey j, newEntry today j)]) := rfl

theorem save_seen_jobs_grows (today : String) (jobs : List JobOffer) :
    ∀ reg : Registry, ∃ extra, save_seen_jobs today jobs reg = reg ++ extra := by
  induction jobs with
  | nil => intro reg; exact ⟨[], (List.append_nil reg).symm⟩
  | cons j rest ih =>
    intro reg
    rw [save_seen_jobs_cons]
    by_cases hf : (regFind reg (jobKey j)).isSome = true
    · rw [if_pos hf]; exact ih reg
    · rw [if_neg hf]
      rcases ih (reg ++ [(jobKey j, newEntry today j)]) with ⟨extra, hx⟩
      exact ⟨_, by rw [hx, List.append_assoc]⟩

theorem regFind_save_preserved (today : String) (jobs : List JobOffer)
    (reg : Registry) {k : String} {e : SeenEntry}
    (h : regFind reg k = some e) :
    regFind (save_seen_jobs today jobs reg) k = some e := by
  rcases save_seen_jobs_grows today jobs reg with ⟨extra, hx⟩
  rw [hx]
  exact regFind_append_some extra h

theorem regFind_save_new (today : String) (jobs : List JobOffer) :
    ∀ (reg : Registry) (k : String) (e2 : SeenEntry),
      regFind (save_seen_jobs today jobs reg) k = some e2 →
      regFind reg k = some e2 ∨
        ∃ j, j ∈ jobs ∧ jobKey j = k ∧ e2 = newEntry today j := by
  induction jobs with
  | nil => intro reg k e2 h; exact Or.inl h
  | cons j rest ih =>
    intro reg k e2 h
    rw [save_seen_jobs_cons] at h
    by_cases hf : (regFind reg (jobKey j)).isSome = true
    · rw [if_pos hf] at h
      rcases ih reg k e2 h with h2 | ⟨j2, hmem, hkey, he⟩
      · exact Or.inl h2
      · exact Or.inr ⟨j2, List.mem_cons_of_mem j hmem, hkey, he⟩
    · rw [if_neg hf] at h
      rcases ih _ k e2 h with h2 | ⟨j2, hmem, hkey, he⟩
      · cases hold : regFind reg k with
        | some e3 =>
          have hsome := regFind_append_some
            [(jobKey j, newEntry today j)] hold
          exact Or.inl (hsome.symm.trans h2)
        | none =>
          rw [regFind_append_none _ hold] at h2
          rw [regFind] at h2
          by_cases hk : (jobKey j == k) = true
          · rw [if_pos hk] at h2
            refine Or.inr ⟨j, List.mem_cons_self j rest, beq_iff_eq.mp hk, ?_⟩
            exact (Option.some_inj.mp h2).symm
          · rw [if_neg hk] at h2
            exact absurd h2 (by simp [regFind])
      · exact Or.inr ⟨j2, List.mem_cons_of_mem j hmem, hkey, he⟩

/-! ### Marking lemmas -/

/-- Marking against an empty registry changes nothing. -/
theorem mark_seen_jobs_nil_reg (jobs : List JobOffer) :
    mark_seen_jobs [] jobs = jobs := by
  induction jobs with
  | nil => rfl
  | cons j rest ih =>
    rw [mark_seen_jobs, ih]
    rfl

/-- The frame relation of _mark_seen_jobs: every output posting keeps
all fields except possibly is_new and first_seen, and a posting whose
key is not registered is returned unchanged. -/
theorem mark_seen_jobs_frame (reg : Registry) (jobs : List JobOffer) :
    List.Forall₂ (fun j j2 =>
      j2.title = j.title ∧ j2.company = j.company ∧ j2.url = j.url ∧
      j2.location = j.location ∧ j2.posted_date = j.posted_date ∧
      j2.description = j.description ∧ j2.source = j.source ∧
      j2.salary = j.salary ∧ j2.tags = j.tags ∧
      (regFind reg (jobKey j) = none → j2 = j))
      jobs (mark_seen_jobs reg jobs) := by
  induction jobs with
  | nil => exact List.Forall₂.nil
  | cons j rest ih =>
    rw [mark_seen_jobs]
    refine List.Forall₂.cons ?_ ih
    cases hfind : regFind reg (jobKey j) with
    | some e =>
      exact ⟨rfl, rfl, rfl, rfl, rfl, rfl, rfl, rfl, rfl,
        fun hcontra => Option.noConfusion hcontra⟩
    | none =>
      exact ⟨rfl, rfl, rfl, rfl, rfl, rfl, rfl, rfl, rfl, fun _ => rfl⟩

/-! ### Claim theorems -/

/-- C1 counterexample: contrary to the claim, the title Senior
Protocol Engineer, Growth is rejected by is_relevant_job, because the
exclusion keyword protocol engineer also occurs in the text and only
the generic keywords engineer and engineering can be waived by a
rescue term. -/
theorem claim_C1_counterexample :
    is_relevant_job "Senior Protocol Engineer, Growth" "" = false := by decide

/-- C1 (amended): Senior Protocol Engineer, Growth is rejected (the
non-generic exclusion protocol engineer matches and cannot be
waived), Backend Engineer is rejected (exclusion engineer matches and
no rescue term is present), and the rescue carve-out does work when
only the generic keywords match: Engineering Manager, Growth is
accepted. -/
theorem claim_C1_relevance :
    is_relevant_job "Senior Protocol Engineer, Growth" "" = false ∧
    is_relevant_job "Backend Engineer" "" = false ∧
    is_relevant_job "Engineering Manager, Growth" "" = true :=
  ⟨by decide, by decide, by decide⟩

/-- C2 counterexample: contrary to the claim, in a single run whose
loaded registry is empty, two identical key-less postings are both
left untouched by _mark_seen_jobs, so the second one keeps
is_new = true rather than being marked not-new. -/
theorem claim_C2_counterexample :
    mark_seen_jobs [] [jDup, jDup] = [jDup, jDup] ∧ jDup.is_new = true :=
  ⟨mark_seen_jobs_nil_reg [jDup, jDup], rfl⟩

/-- C2 (amended): the Novelty Tracker does treat the two key-less
postings as the same identity (the title-pipe-company fallback key),
but classification is a batch pass against the loaded registry, so
the two receive the same verdict: both marked not-new when the key is
registered, both left new when it is not; the Deduplicator treats
them as distinct and retains both either way. -/
theorem claim_C2_fallback_collision (reg : Registry) :
    (∀ e, regFind reg "Growth Lead|Acme" = some e →
      mark_seen_jobs reg [jDup, jDup] =
        [{ jDup with
            is_new := false
            first_seen := some (e.first_seen.getD "Unknown") },
         { jDup with
            is_new := false
            first_seen := some (e.first_seen.getD "Unknown") }]) ∧
    (regFind reg "Growth Lead|Acme" = none →
      mark_seen_jobs reg [jDup, jDup] = [jDup, jDup]) ∧
    dedupe [jDup, jDup] = [jDup, jDup] := by
  have hk : jobKey jDup = "Growth Lead|Acme" := by decide
  refine ⟨?_, ?_, by decide⟩
  · intro e he
    rw [mark_seen_jobs, mark_seen_jobs, mark_seen_jobs, hk, he]
  · intro he
    rw [mark_seen_jobs, mark_seen_jobs, mark_seen_jobs, hk, he]

/-- C2 witness: with a loaded registry that contains the fallback key,
both duplicate key-less postings are marked not-new with the recorded
first-seen date. -/
theorem claim_C2_witness :
    mark_seen_jobs demoSeenReg [jDup, jDup] =
      [{ jDup with
          is_new := false
          first_seen := some (demoSeenEntry.first_seen.getD "Unknown") },
       { jDup with
          is_new := false
          first_seen := some (demoSeenEntry.first_seen.getD "Unknown") }] :=
  (claim_C2_fallback_collision demoSeenReg).1 demoSeenEntry (by decide)

/-- C3: novelty round-trip.  From an empty registry, run 1 over
postings with urls a and b leaves both marked new and persists both
keys with run 1's date; run 2, loading that registry and annotating
postings with urls a and c, marks a not-new with first_seen equal to
run 1's date and marks c new. -/
theorem claim_C3_novelty_round_trip (d1 d2 : String) :
    (runNovelty [] d1 jobsRun1).1.map (fun j => j.is_new) = [true, true] ∧
    (runNovelty [] d1 jobsRun1).2 =
      [("a", { first_seen := some d1, title := "A", company := "CoA" }),
       ("b", { first_seen := some d1, title := "B", company := "CoB" })] ∧
    (runNovelty (runNovelty [] d1 jobsRun1).2 d2 jobsRun2).1.map
        (fun j => (j.is_new, j.first_seen)) =
      [(false, some d1), (true, none)] :=
  ⟨rfl, rfl, rfl⟩

/-- C4: the Deduplicator output is the input restricted, in original
order, to the first occurrence of each distinct non-empty url plus
every key-less posting: it equals the first-occurrence filter, is a
sublist of the input, no two retained postings share a non-empty url,
and the key-less postings are retained verbatim with multiplicity. -/
theorem claim_C4_dedupe_first_occurrence (xs : List JobOffer) :
    dedupe xs = dedupeSpec xs ∧
    (dedupe xs).Sublist xs ∧
    List.Pairwise URLDistinct (dedupe xs) ∧
    (dedupe xs).filter (fun j => j.url == "") =
      xs.filter (fun j => j.url == "") := by
  refine ⟨dedupe_eq_spec xs, ?_, pairwise_dedupeLoop xs [], ?_⟩
  · rw [dedupe_eq_spec xs]; exact dedupeSpec_sublist xs
  · rw [dedupe_eq_spec xs]; exact dedupeSpec_filter_keyless xs

/-- C6: date-normalizer priority.  The input 2 days ago resolves to
now minus 2 days; day beats week (1 w 2 d resolves by the day
pattern), month beats hour and counts 30 days (2 mo 1 h), day beats
hour (3 h 1 d); and in general, whenever neither marker branch fires
and some relative-unit pattern matches, parse_relative_date returns
the relative-branch result, never consulting the absolute formats. -/
theorem claim_C6_date_priority :
    (∀ now : Int, parse_relative_date now "2 days ago" =
      some (now - 2 * secPerDay)) ∧
    (∀ now : Int, parse_relative_date now "1 w 2 d" =
      some (now - 2 * secPerDay)) ∧
    (∀ now : Int, parse_relative_date now "2 mo 1 h" =
      some (now - 2 * 30 * secPerDay)) ∧
    (∀ now : Int, parse_relative_date now "3 h 1 d" =
      some (now - 1 * secPerDay)) ∧
    (∀ (now : Int) (s : String), s ≠ "" →
      TODAY_MARKERS.any (fun m => containsSub m.data (normalizeDate s)) = false →
      containsSub "yesterday".data (normalizeDate s) = false →
      (relativeBranch now (normalizeDate s)).isSome = true →
      parse_relative_date now s = relativeBranch now (normalizeDate s)) := by
  refine ⟨fun now => rfl, fun now => rfl, fun now => rfl, fun now => rfl, ?_⟩
  intro now s hs hm hy hr
  obtain ⟨t, ht⟩ := Option.isSome_iff_exists.mp hr
  unfold parse_relative_date
  rw [if_neg hs]
  simp [hm, hy, ht]

/-- C6 witness: the general relative-priority statement applied to the
concrete input 2 weeks ago. -/
theorem claim_C6_witness :
    parse_relative_date 0 "2 weeks ago" =
      relativeBranch 0 (normalizeDate "2 weeks ago") :=
  claim_C6_date_priority.2.2.2.2 0 "2 weeks ago"
    (by decide) (by decide) (by decide) (by decide)

/-- C7: is_recent accepts exactly the postings whose date is unknown
or at least now minus the window; with the default 30-day window the
boundary is inclusive at exactly 30 days and excludes 31 days. -/
theorem claim_C7_recency_boundary (now w : Int) (p : Option Int) :
    (is_recent now w p = true ↔
      p = none ∨ ∃ d, p = some d ∧ now - w * secPerDay ≤ d) ∧
    is_recent now 30 (some (now - 30 * secPerDay)) = true ∧
    is_recent now 30 (some (now - 31 * secPerDay)) = false := by
  refine ⟨?_, ?_, ?_⟩
  · cases p with
    | none => simp [is_recent]
    | some d => simp [is_recent]
  · simp only [is_recent, secPerDay, decide_eq_true_eq]
    omega
  · simp only [is_recent, secPerDay, decide_eq_false_iff_not]
    omega

/-- C8: the registry update only inserts records for keys not already
present, each new record carrying first_seen = today plus the
posting's title and company; the updated registry extends the old one
and every pre-existing key keeps its exact record, so first-seen
dates are immutable and no entry is removed or overwritten. -/
theorem claim_C8_registry_monotone (today : String) (jobs : List JobOffer)
    (reg : Registry) :
    (∃ extra, save_seen_jobs today jobs reg = reg ++ extra) ∧
    (∀ k e, regFind reg k = some e →
      regFind (save_seen_jobs today jobs reg) k = some e) ∧
    (∀ k e2, regFind (save_seen_jobs today jobs reg) k = some e2 →
      regFind reg k = some e2 ∨
        ∃ j, j ∈ jobs ∧ jobKey j = k ∧ e2 = newEntry today j) :=
  ⟨save_seen_jobs_grows today jobs reg,
   fun _ _ h => regFind_save_preserved today jobs reg h,
   fun k e2 h => regFind_save_new today jobs reg k e2 h⟩

/-- C8 witness: saving a fresh posting on top of a registry holding an
unrelated key leaves that key's record untouched. -/
theorem claim_C8_witness :
    regFind (save_seen_jobs "2024-06-01" [demoUrlJob] demoOldReg)
        "https://x/0" =
      some { first_seen := some "2023-12-31", title := "Old",
             company := "OldCo" } :=
  (claim_C8_registry_monotone "2024-06-01" [demoUrlJob] demoOldReg).2.1
    "https://x/0"
    { first_seen := some "2023-12-31", title := "Old", company := "OldCo" }
    (by decide)

/-- C9 counterexample: contrary to the claim, not every malformed
registry file yields the empty mapping: a file whose bytes are not
valid UTF-8 makes _load_seen_jobs raise UnicodeDecodeError past the
except clause (which names only JSONDecodeError and IOError), and a
file holding the valid non-mapping JSON document [1, 2] is returned
as-is rather than as the empty mapping. -/
theorem claim_C9_counterexample :
    load_seen_jobs RegistryFile.encodingError ≠
      LoadResult.value (JsonDoc.mapping []) ∧
    load_seen_jobs (RegistryFile.valid (JsonDoc.nonMapping "[1, 2]")) ≠
      LoadResult.value (JsonDoc.mapping []) :=
  ⟨by decide, by decide⟩

/-- C9 (amended): _load_seen_jobs returns the empty mapping for a
missing file and for both caught failure modes (IOError on reading,
json.JSONDecodeError on parsing), and returns a valid mapping as-is,
so those runs proceed with every posting keeping its default
classification as new; however it is not total on all malformed
files: invalid UTF-8 bytes raise UnicodeDecodeError past the
handler, and a valid JSON document that is not a mapping is returned
unchanged instead of the empty mapping. -/
theorem claim_C9_load_fallback :
    load_seen_jobs RegistryFile.missing =
      LoadResult.value (JsonDoc.mapping []) ∧
    load_seen_jobs RegistryFile.readError =
      LoadResult.value (JsonDoc.mapping []) ∧
    load_seen_jobs RegistryFile.decodeError =
      LoadResult.value (JsonDoc.mapping []) ∧
    (∀ r, load_seen_jobs (RegistryFile.valid (JsonDoc.mapping r)) =
      LoadResult.value (JsonDoc.mapping r)) ∧
    load_seen_jobs RegistryFile.encodingError =
      LoadResult.raisesUnicodeDecodeError ∧
    (∀ raw, load_seen_jobs (RegistryFile.valid (JsonDoc.nonMapping raw)) =
      LoadResult.value (JsonDoc.nonMapping raw)) ∧
    (∀ jobs, mark_seen_jobs [] jobs = jobs) :=
  ⟨rfl, rfl, rfl, fun _ => rfl, rfl, fun _ => rfl,
   fun jobs => mark_seen_jobs_nil_reg jobs⟩

/-- C10: _mark_seen_jobs is a pure frame over the posting list: the
output has the same length and, position by position, every field
except is_new and first_seen is unchanged, and a posting whose
identity key is not in the registry is returned entirely unchanged. -/
theorem claim_C10_mark_frame (reg : Registry) (jobs : List JobOffer) :
    (mark_seen_jobs reg jobs).length = jobs.length ∧
    List.Forall₂ (fun j j2 =>
      j2.title = j.title ∧ j2.company = j.company ∧ j2.url = j.url ∧
      j2.location = j.location ∧ j2.posted_date = j.posted_date ∧
      j2.description = j.description ∧ j2.source = j.source ∧
      j2.salary = j.salary ∧ j2.tags = j.tags ∧
      (regFind reg (jobKey j) = none → j2 = j))
      jobs (mark_seen_jobs reg jobs) :=
  ⟨(mark_seen_jobs_frame reg jobs).length_eq.symm,
   mark_seen_jobs_frame reg jobs⟩
